import Mathlib

/-
Verification of the ratapp screen-navigation runtime.

The definitions below are a shallow embedding of the core of the repository:

* crates/ratapp/src/app.rs      — App::new / App::with_state / App::run
* crates/ratapp/src/screen.rs   — ScreenState, Screen, ScreenWithState
* crates/ratapp/src/navigation.rs — Navigator, Action
* crates/ratapp-macros/src/lib.rs — the Screens derive macro output

The run loop owns a stack of screen instances (Rust VecDeque, back = top;
here the HEAD of the list is the top), a dirty flag (the local `draw`
variable), the terminal-event channel and the navigation-action channel.
Screen callbacks are abstracted as pure functions that may mutate the
screen, mutate the application state, and enqueue navigation actions via
their Navigator handle (modelled as the returned action list, appended to
the action channel). Instances carry a creation tag so that instance
identity and per-instance lifecycle traces can be stated.
-/

namespace Ratapp

/-- Terminal input events delivered by the crossterm backend. The run loop
only ever inspects whether an event is a resize (app.rs line 137); every
other event is passed to the active screen unexamined. -/
inductive Event where
  | key (code : Nat)
  | resize (w h : Nat)
  | other
deriving DecidableEq

/-- Navigation actions sent by screens through a Navigator handle
(navigation.rs, enum Action, lines 120-128). -/
inductive Action (ID : Type) where
  | push (id : ID)
  | replace (id : ID)
  | back
  | clear
  | restart
  | exit
  | rerender
deriving DecidableEq

/-- Whether an event is a terminal resize, the only event kind the loop
itself matches on (app.rs line 137). -/
def isResize : Event → Bool
  | .resize _ _ => true
  | _ => false

/-- Observable effects of the run loop, recorded in order: lifecycle
callbacks on instances (identified by creation tag), event deliveries,
draws, and terminal restoration. -/
inductive TraceEntry where
  | enter (tag : Nat)
  | exit (tag : Nat)
  | pause (tag : Nat)
  | resume (tag : Nat)
  | handledEvent (tag : Nat) (e : Event)
  | drew (tag : Nat)
  | restore
deriving DecidableEq

/-- Whether a trace entry is a callback or delivery on the instance with
the given tag (terminal restoration touches no instance). -/
def touches (k : Nat) : TraceEntry → Bool
  | .enter m => m == k
  | .exit m => m == k
  | .pause m => m == k
  | .resume m => m == k
  | .handledEvent m _ => m == k
  | .drew m => m == k
  | .restore => false

/-- A live screen instance on the stack: a creation tag (instance identity,
tags are handed out in creation order) and the screen value. -/
structure Inst (σ : Type) where
  tag : Nat
  scr : σ
deriving DecidableEq

/-- The ScreenState contract (screen.rs lines 54-64) as the run loop
consumes it: construction via Default and via new(id), synchronous draw
(which takes the screen mutably and reads the application state), and the
awaitable callbacks. An awaitable callback returns the mutated screen, the
mutated application state, and the navigation actions it enqueued through
its Navigator clone, in order. -/
structure ScreenSig (ID σ τ : Type) where
  defaultScreen : σ
  new : ID → σ
  draw : σ → τ → σ
  onEvent : σ → Event → τ → σ × τ × List (Action ID)
  onEnter : σ → τ → σ × τ × List (Action ID)
  onExit : σ → τ → σ × τ × List (Action ID)
  onPause : σ → τ → σ × τ × List (Action ID)
  onResume : σ → τ → σ × τ × List (Action ID)

/-- The state owned by one execution of App::run (app.rs 103-214): the
screen stack (head = top, Rust VecDeque back), the pending terminal events
(head = next to be received), the pending navigation actions, the
application state, the dirty flag (local variable `draw`), the next fresh
instance tag, the stream of backend draw outcomes (head consumed at the
next draw; empty means all further draws succeed), the select tie-break
schedule (consumed only when both channels are ready; true picks the event
arm), and the recorded trace. -/
structure LoopState (ID σ τ : Type) where
  stack : List (Inst σ)
  events : List Event
  actions : List (Action ID)
  appState : τ
  dirty : Bool
  nextTag : Nat
  drawResults : List Bool
  sched : List Bool
  trace : List TraceEntry
deriving DecidableEq

variable {ID σ τ : Type}

/-- The while-let pop_back drain used by the Clear, Restart and Exit arms
(app.rs 179-181, 186-188, 197-199): pop each instance (head first; head is
the top), run on_exit on it, and drop it. Returns the final application
state, the actions the callbacks enqueued (in invocation order), and the
exit trace entries (in pop order). -/
def exitAll (sig : ScreenSig ID σ τ) : List (Inst σ) → τ → τ × List (Action ID) × List TraceEntry
  | [], t => (t, [], [])
  | i :: rest, t =>
    let e := sig.onExit i.scr t
    let z := exitAll sig rest e.2.1
    (z.1, e.2.2 ++ z.2.1, TraceEntry.exit i.tag :: z.2.2)

/-- Outcome of applying one navigation action: either the loop continues
with a new state, or the Exit arm ran `break`. -/
inductive ActionResult (ID σ τ : Type) where
  | next (st : LoopState ID σ τ)
  | exitLoop (st : LoopState ID σ τ)
deriving DecidableEq

/-- The navigation-action match of the run loop (app.rs 144-206), applied
to a state whose action channel has already had the received action removed.
none models the panic of the unwrap/expect calls on an empty stack (app.rs
123, 156, 167, 177), which the stack invariant keeps unreachable. -/
def applyAction (sig : ScreenSig ID σ τ) (st : LoopState ID σ τ) :
    Action ID → Option (ActionResult ID σ τ) := fun a =>
  match st.stack with
  | [] => none
  | top :: rest =>
    match a with
    | .push id =>
      let p := sig.onPause top.scr st.appState
      let n := sig.onEnter (sig.new id) p.2.1
      some (.next { st with
        stack := ⟨st.nextTag, n.1⟩ :: ⟨top.tag, p.1⟩ :: rest,
        appState := n.2.1,
        actions := st.actions ++ p.2.2 ++ n.2.2,
        dirty := true,
        nextTag := st.nextTag + 1,
        trace := st.trace ++ [.pause top.tag, .enter st.nextTag] })
    | .replace id =>
      let e := sig.onExit top.scr st.appState
      let n := sig.onEnter (sig.new id) e.2.1
      some (.next { st with
        stack := ⟨st.nextTag, n.1⟩ :: rest,
        appState := n.2.1,
        actions := st.actions ++ e.2.2 ++ n.2.2,
        dirty := true,
        nextTag := st.nextTag + 1,
        trace := st.trace ++ [.exit top.tag, .enter st.nextTag] })
    | .back =>
      match rest with
      | [] => some (.next st)
      | b :: rest' =>
        let e := sig.onExit top.scr st.appState
        let r := sig.onResume b.scr e.2.1
        some (.next { st with
          stack := ⟨b.tag, r.1⟩ :: rest',
          appState := r.2.1,
          actions := st.actions ++ e.2.2 ++ r.2.2,
          dirty := true,
          trace := st.trace ++ [.exit top.tag, .resume b.tag] })
    | .clear =>
      let z := exitAll sig rest st.appState
      some (.next { st with
        stack := [top],
        appState := z.1,
        actions := st.actions ++ z.2.1,
        trace := st.trace ++ z.2.2 })
    | .restart =>
      let z := exitAll sig (top :: rest) st.appState
      let n := sig.onEnter sig.defaultScreen z.1
      some (.next { st with
        stack := [⟨st.nextTag, n.1⟩],
        appState := n.2.1,
        actions := st.actions ++ z.2.1 ++ n.2.2,
        dirty := true,
        nextTag := st.nextTag + 1,
        trace := st.trace ++ z.2.2 ++ [.enter st.nextTag] })
    | .exit =>
      let z := exitAll sig (top :: rest) st.appState
      some (.exitLoop { st with
        stack := [],
        appState := z.1,
        actions := st.actions ++ z.2.1,
        trace := st.trace ++ z.2.2 })
    | .rerender => some (.next { st with dirty := true })

/-- Outcome of one iteration of the run loop: continue, break after Exit,
return after a failed draw, panic on an empty stack, or block forever in
the select because both channels are empty and nothing else can wake it. -/
inductive StepOut (ID σ τ : Type) where
  | cont (st : LoopState ID σ τ)
  | exited (st : LoopState ID σ τ)
  | failed (st : LoopState ID σ τ)
  | panicked
  | blocked (st : LoopState ID σ τ)
deriving DecidableEq

/-- The terminal-event select arm (app.rs 136-142), applied to a state
whose event channel has already had the received event removed: on a
resize set the dirty flag, then run on_event on the top screen. -/
def handleEventOut (sig : ScreenSig ID σ τ) (st : LoopState ID σ τ) (e : Event) :
    StepOut ID σ τ :=
  match st.stack with
  | [] => .panicked
  | top :: rest =>
    let r := sig.onEvent top.scr e st.appState
    .cont { st with
      stack := ⟨top.tag, r.1⟩ :: rest,
      appState := r.2.1,
      actions := st.actions ++ r.2.2,
      dirty := if isResize e then true else st.dirty,
      trace := st.trace ++ [.handledEvent top.tag e] }

/-- The navigation-action select arm (app.rs 143-207): apply the received
action; Exit breaks out of the loop. -/
def handleActionOut (sig : ScreenSig ID σ τ) (st : LoopState ID σ τ) (a : Action ID) :
    StepOut ID σ τ :=
  match applyAction sig st a with
  | none => .panicked
  | some (.next st') => .cont st'
  | some (.exitLoop st') => .exited st'

/-- The tokio select of the run loop (app.rs 135-208). It has exactly two
arms: receive a terminal event, or receive a navigation action. If both
channels are empty the select never completes; if both are ready, the
schedule oracle resolves the (in tokio, random) branch choice. -/
def selectPhase (sig : ScreenSig ID σ τ) (st : LoopState ID σ τ) : StepOut ID σ τ :=
  match st.events, st.actions with
  | [], [] => .blocked st
  | e :: es, [] => handleEventOut sig { st with events := es } e
  | [], a :: as => handleActionOut sig { st with actions := as } a
  | e :: es, a :: as =>
    if st.sched.headD true then
      handleEventOut sig { st with events := es, sched := st.sched.tail } e
    else
      handleActionOut sig { st with actions := as, sched := st.sched.tail } a

/-- One iteration of the run loop (app.rs 122-209): take the top screen
(panicking if the stack is empty, app.rs 123); if the dirty flag is set,
draw the top screen — on a backend draw error restore the terminal and
return the error (app.rs 125-130), on success clear the flag — and then
run the two-arm select. -/
def step (sig : ScreenSig ID σ τ) (st : LoopState ID σ τ) : StepOut ID σ τ :=
  match st.stack with
  | [] => .panicked
  | top :: rest =>
    if st.dirty then
      if st.drawResults.headD true then
        selectPhase sig { st with
          stack := ⟨top.tag, sig.draw top.scr st.appState⟩ :: rest,
          dirty := false,
          drawResults := st.drawResults.tail,
          trace := st.trace ++ [.drew top.tag] }
      else .failed { st with trace := st.trace ++ [.restore] }
    else selectPhase sig st

/-- Result of a whole fuelled execution of the run loop. ok is the Ok
return after Exit (terminal restored, app.rs 211-213); ioErr is the error
return of a failed draw; hung means the select blocked with no input left;
fuelOut means the fuel ran out mid-run. -/
inductive RunResult (ID σ τ : Type) where
  | ok (st : LoopState ID σ τ)
  | ioErr (st : LoopState ID σ τ)
  | panicked
  | hung (st : LoopState ID σ τ)
  | fuelOut (st : LoopState ID σ τ)
deriving DecidableEq

/-- The run loop iterated with fuel: repeatedly step; on break, restore
the terminal and return Ok (app.rs 211-213); on a draw error, return it
(the restore already happened inside the iteration, app.rs 128-130). -/
def runLoop (sig : ScreenSig ID σ τ) : Nat → LoopState ID σ τ → RunResult ID σ τ
  | 0, st => .fuelOut st
  | n + 1, st =>
    match step sig st with
    | .cont st' => runLoop sig n st'
    | .exited st' => .ok { st' with trace := st'.trace ++ [TraceEntry.restore] }
    | .failed st' => .ioErr st'
    | .panicked => .panicked
    | .blocked st' => .hung st'

/-- n consecutive loop iterations that all continue; none if the run ends
or blocks before the n-th. The some-states are exactly the loop states
between the end of initialization and the beginning of shutdown. -/
def stepN (sig : ScreenSig ID σ τ) : Nat → LoopState ID σ τ → Option (LoopState ID σ τ)
  | 0, st => some st
  | n + 1, st =>
    match step sig st with
    | .cont st' => stepN sig n st'
    | _ => none

/-- The loop state at the end of App::run initialization (app.rs 107-120):
the stack holds the single default screen with tag 0, on_enter has run on
it (any actions it enqueued are already in the channel), and the dirty
flag is set so the first iteration draws. The caller supplies the terminal
event stream, the backend draw outcomes and the select schedule. -/
def initState (sig : ScreenSig ID σ τ) (t0 : τ) (evs : List Event) (dr sc : List Bool) :
    LoopState ID σ τ :=
  let e := sig.onEnter sig.defaultScreen t0
  { stack := [⟨0, e.1⟩], events := evs, actions := e.2.2, appState := e.2.1,
    dirty := true, nextTag := 1, drawResults := dr, sched := sc,
    trace := [TraceEntry.enter 0] }

/-- The arms of the tokio select in the run loop (app.rs 135-208): exactly
two, one receiving terminal events from the reader worker, one receiving
navigation actions from the Navigator channel. -/
inductive SelectArm where
  | terminalEvent
  | navAction
deriving DecidableEq

/-- Modelled from the spec: the three await sources the specification says
every loop iteration races — a terminal event, a navigation action, and
the top screen's background() future. The background source is the part
missing from the code: neither the select at app.rs 135-208 nor the
ScreenState contract at screen.rs 54-64 has any background future. -/
inductive SpecSource where
  | terminalEvent
  | navAction
  | background
deriving DecidableEq

/-- The spec await source that each select arm of the code implements. -/
def selectArmSource : SelectArm → SpecSource
  | .terminalEvent => .terminalEvent
  | .navAction => .navAction

/-- The blocking terminal reader worker spawned by App::new and
App::with_state (app.rs 55-63 and 83-91). One entry of the input list per
call to event::read, with none modelling a read error. alive is the number
of channel sends that still succeed before the loop-side receiver is
dropped; once it is dropped every send fails. Returns the events forwarded
to the loop and whether the worker broke out of its loop. -/
def readerRun : List (Option Event) → Nat → List Event × Bool
  | [], _ => ([], false)
  | none :: rest, alive => readerRun rest alive
  | some _ :: _, 0 => ([], true)
  | some e :: rest, alive + 1 =>
    let z := readerRun rest alive
    (e :: z.1, z.2)

/-- The stateless Screen contract (screen.rs 79-135): all operations see
only the screen itself (and for draw the frame, for on_event the event);
callbacks may enqueue actions through their Navigator. -/
structure ScreenOps (ID σ Fr : Type) where
  draw : σ → Fr → σ × Fr
  onEvent : σ → Event → σ × List (Action ID)
  onEnter : σ → σ × List (Action ID)
  onExit : σ → σ × List (Action ID)
  onPause : σ → σ × List (Action ID)
  onResume : σ → σ × List (Action ID)

/-- The ScreenWithState contract (screen.rs 138-200): draw reads the
application state, the awaitable callbacks may mutate it. -/
structure ScreenWithStateOps (ID σ τ Fr : Type) where
  draw : σ → Fr → τ → σ × Fr
  onEvent : σ → Event → τ → σ × τ × List (Action ID)
  onEnter : σ → τ → σ × τ × List (Action ID)
  onExit : σ → τ → σ × τ × List (Action ID)
  onPause : σ → τ → σ × τ × List (Action ID)
  onResume : σ → τ → σ × τ × List (Action ID)

/-- The blanket impl of ScreenWithState for every Screen (screen.rs
203-230): each operation forwards to the stateless operation, passing the
state argument through untouched. -/
def toWithState {Fr : Type} (ops : ScreenOps ID σ Fr) : ScreenWithStateOps ID σ τ Fr where
  draw s f _ := ops.draw s f
  onEvent s e t := ((ops.onEvent s e).1, t, (ops.onEvent s e).2)
  onEnter s t := ((ops.onEnter s).1, t, (ops.onEnter s).2)
  onExit s t := ((ops.onExit s).1, t, (ops.onExit s).2)
  onPause s t := ((ops.onPause s).1, t, (ops.onPause s).2)
  onResume s t := ((ops.onResume s).1, t, (ops.onResume s).2)

/-- The match arms of the generated ScreenState::new (ratapp-macros
lib.rs 103-107 and 152-156): one arm per user enum variant, in declaration
order; the arm for variant k yields variant k holding the
Default-initialised screen of that variant's screen type. The user enum
with n variants is modelled as the tagged union over Fin n, with Scr k the
screen type held by variant k and dflt k its Default instance. -/
def genNewArms (n : Nat) (Scr : Fin n → Type) (dflt : (k : Fin n) → Scr k) :
    List ((k : Fin n) × Scr k) :=
  List.ofFn fun k => ⟨k, dflt k⟩

/-- Semantics of the generated new(id): the generated match on the
ScreenID discriminant selects the arm whose pattern is id from the
variant-ordered arm list. -/
def genNew (n : Nat) (Scr : Fin n → Type) (dflt : (k : Fin n) → Scr k) (id : Fin n) :
    (k : Fin n) × Scr k :=
  (genNewArms n Scr dflt).get (Fin.cast (by simp [genNewArms]) id)

/-- Semantics of the generated draw (ratapp-macros lib.rs 158-164): match
on the tagged union, bind the screen held in the active variant, and apply
that variant's ScreenWithState draw to it. -/
def genDraw {n : Nat} {Scr : Fin n → Type} {ID τ Fr : Type}
    (ops : (k : Fin n) → ScreenWithStateOps ID (Scr k) τ Fr)
    (v : (k : Fin n) × Scr k) (f : Fr) (t : τ) : ((k : Fin n) × Scr k) × Fr :=
  let r := (ops v.1).draw v.2 f t
  (⟨v.1, r.1⟩, r.2)

/-- Semantics of the generated on_event (ratapp-macros lib.rs 166-172):
dispatch to the active variant's on_event. -/
def genOnEvent {n : Nat} {Scr : Fin n → Type} {ID τ Fr : Type}
    (ops : (k : Fin n) → ScreenWithStateOps ID (Scr k) τ Fr)
    (v : (k : Fin n) × Scr k) (e : Event) (t : τ) :
    ((k : Fin n) × Scr k) × τ × List (Action ID) :=
  let r := (ops v.1).onEvent v.2 e t
  (⟨v.1, r.1⟩, r.2.1, r.2.2)

/-- Semantics of the generated on_enter (ratapp-macros lib.rs 174-180). -/
def genOnEnter {n : Nat} {Scr : Fin n → Type} {ID τ Fr : Type}
    (ops : (k : Fin n) → ScreenWithStateOps ID (Scr k) τ Fr)
    (v : (k : Fin n) × Scr k) (t : τ) : ((k : Fin n) × Scr k) × τ × List (Action ID) :=
  let r := (ops v.1).onEnter v.2 t
  (⟨v.1, r.1⟩, r.2.1, r.2.2)

/-- Semantics of the generated on_exit (ratapp-macros lib.rs 182-188). -/
def genOnExit {n : Nat} {Scr : Fin n → Type} {ID τ Fr : Type}
    (ops : (k : Fin n) → ScreenWithStateOps ID (Scr k) τ Fr)
    (v : (k : Fin n) × Scr k) (t : τ) : ((k : Fin n) × Scr k) × τ × List (Action ID) :=
  let r := (ops v.1).onExit v.2 t
  (⟨v.1, r.1⟩, r.2.1, r.2.2)

/-- Semantics of the generated on_pause (ratapp-macros lib.rs 190-196). -/
def genOnPause {n : Nat} {Scr : Fin n → Type} {ID τ Fr : Type}
    (ops : (k : Fin n) → ScreenWithStateOps ID (Scr k) τ Fr)
    (v : (k : Fin n) × Scr k) (t : τ) : ((k : Fin n) × Scr k) × τ × List (Action ID) :=
  let r := (ops v.1).onPause v.2 t
  (⟨v.1, r.1⟩, r.2.1, r.2.2)

/-- Semantics of the generated on_resume (ratapp-macros lib.rs 198-204). -/
def genOnResume {n : Nat} {Scr : Fin n → Type} {ID τ Fr : Type}
    (ops : (k : Fin n) → ScreenWithStateOps ID (Scr k) τ Fr)
    (v : (k : Fin n) × Scr k) (t : τ) : ((k : Fin n) × Scr k) × τ × List (Action ID) :=
  let r := (ops v.1).onResume v.2 t
  (⟨v.1, r.1⟩, r.2.1, r.2.2)

/-- A concrete screen-set over naturals (screens, ids and application
state are all Nat) used to evaluate the loop at explicit inputs. -/
def sigC : ScreenSig Nat Nat Nat where
  defaultScreen := 0
  new := fun id => id + 100
  draw := fun s _ => s
  onEvent := fun s _ t => (s, t, [])
  onEnter := fun s t => (s, t, [])
  onExit := fun s t => (s, t, [])
  onPause := fun s t => (s, t, [])
  onResume := fun s t => (s, t, [])

/-- A concrete loop state with one pending terminal event. -/
def stC1 : LoopState Nat Nat Nat :=
  { stack := [⟨0, 5⟩], events := [Event.key 1], actions := [], appState := 0,
    dirty := false, nextTag := 1, drawResults := [], sched := [], trace := [] }

/-- A concrete loop state with both channels empty. -/
def stBlockC : LoopState Nat Nat Nat :=
  { stack := [⟨0, 5⟩], events := [], actions := [], appState := 0,
    dirty := false, nextTag := 1, drawResults := [], sched := [], trace := [] }

/-- The concrete initial state used by the stack-invariant witness. -/
def init0C : LoopState Nat Nat Nat :=
  initState sigC 0 [Event.key 0] [] []

/-- The concrete state after one loop iteration from init0C (with a
harmless fallback so the definition is total). -/
def stC2 : LoopState Nat Nat Nat :=
  match stepN sigC 1 init0C with
  | some s => s
  | none =>
    { stack := [], events := [], actions := [], appState := 0,
      dirty := false, nextTag := 0, drawResults := [], sched := [], trace := [] }

/-- A concrete loop state used by the push/back round-trip witness. -/
def stC3 : LoopState Nat Nat Nat :=
  { stack := [⟨0, 5⟩], events := [], actions := [], appState := 0,
    dirty := false, nextTag := 1, drawResults := [], sched := [], trace := [] }

/-- A concrete three-screen loop state used by the Clear witness. -/
def stC4 : LoopState Nat Nat Nat :=
  { stack := [⟨2, 9⟩, ⟨1, 8⟩, ⟨0, 7⟩], events := [], actions := [], appState := 0,
    dirty := false, nextTag := 3, drawResults := [], sched := [], trace := [] }

/-- A concrete two-screen loop state used by the Back witness. -/
def stC5a : LoopState Nat Nat Nat :=
  { stack := [⟨1, 8⟩, ⟨0, 7⟩], events := [], actions := [], appState := 0,
    dirty := false, nextTag := 2, drawResults := [], sched := [], trace := [] }

/-- A concrete one-screen loop state used by the Back no-op witness. -/
def stC5b : LoopState Nat Nat Nat :=
  { stack := [⟨0, 7⟩], events := [], actions := [], appState := 0,
    dirty := false, nextTag := 1, drawResults := [], sched := [], trace := [] }

/-- A concrete dirty loop state whose next backend draw fails. -/
def stC6 : LoopState Nat Nat Nat :=
  { stack := [⟨0, 3⟩], events := [], actions := [], appState := 0,
    dirty := true, nextTag := 1, drawResults := [false], sched := [], trace := [] }

/-- A concrete two-screen loop state whose next action is Exit. -/
def stC7 : LoopState Nat Nat Nat :=
  { stack := [⟨1, 7⟩, ⟨0, 5⟩], events := [], actions := [Action.exit], appState := 0,
    dirty := false, nextTag := 2, drawResults := [], sched := [], trace := [] }

/-- The exit drain produces exactly one on_exit trace entry per popped
instance, in pop order. -/
theorem exitAll_trace (sig : ScreenSig ID σ τ) :
    ∀ (l : List (Inst σ)) (t : τ),
      (exitAll sig l t).2.2 = l.map fun i => TraceEntry.exit i.tag := by
  intro l
  induction l with
  | nil => intro t; rfl
  | cons i rest ih => intro t; simp [exitAll, ih]

/-- Every navigation action that lets the loop continue leaves the stack
non-empty. -/
theorem applyAction_next_stack_ne (sig : ScreenSig ID σ τ) (st st' : LoopState ID σ τ)
    (a : Action ID) (h : applyAction sig st a = some (ActionResult.next st')) :
    st'.stack ≠ [] := by
  unfold applyAction at h
  cases hs : st.stack with
  | nil => rw [hs] at h; simp at h
  | cons top rest =>
    rw [hs] at h
    cases a with
    | push id => simp at h; rw [← h]; simp
    | replace id => simp at h; rw [← h]; simp
    | back =>
      cases hr : rest with
      | nil => rw [hr] at h; simp at h; rw [← h]; simp [hs, hr]
      | cons b rest' => rw [hr] at h; simp at h; rw [← h]; simp
    | clear => simp at h; rw [← h]; simp
    | restart => simp at h; rw [← h]; simp
    | exit => simp at h
    | rerender => simp at h; rw [← h]; simp [hs]

/-- The terminal-event arm never blocks. -/
theorem handleEventOut_ne_blocked (sig : ScreenSig ID σ τ) (st st' : LoopState ID σ τ)
    (e : Event) : handleEventOut sig st e ≠ StepOut.blocked st' := by
  unfold handleEventOut
  cases st.stack <;> simp

/-- The navigation-action arm never blocks. -/
theorem handleActionOut_ne_blocked (sig : ScreenSig ID σ τ) (st st' : LoopState ID σ τ)
    (a : Action ID) : handleActionOut sig st a ≠ StepOut.blocked st' := by
  unfold handleActionOut
  cases h : applyAction sig st a with
  | none => simp
  | some r => cases r <;> simp

/-- If the terminal-event arm continues, the stack stays non-empty. -/
theorem handleEventOut_cont_stack_ne (sig : ScreenSig ID σ τ) (st st' : LoopState ID σ τ)
    (e : Event) (h : handleEventOut sig st e = StepOut.cont st') : st'.stack ≠ [] := by
  unfold handleEventOut at h
  cases hs : st.stack with
  | nil => rw [hs] at h; simp at h
  | cons top rest => rw [hs] at h; simp at h; rw [← h]; simp

/-- If the navigation-action arm continues, the stack stays non-empty. -/
theorem handleActionOut_cont_stack_ne (sig : ScreenSig ID σ τ) (st st' : LoopState ID σ τ)
    (a : Action ID) (h : handleActionOut sig st a = StepOut.cont st') : st'.stack ≠ [] := by
  unfold handleActionOut at h
  cases ha : applyAction sig st a with
  | none => rw [ha] at h; simp at h
  | some r =>
    rw [ha] at h
    cases r with
    | next st1 => simp at h; rw [← h]; exact applyAction_next_stack_ne sig st st1 a ha
    | exitLoop st1 => simp at h

/-- If the select continues, the stack stays non-empty. -/
theorem selectPhase_cont_stack_ne (sig : ScreenSig ID σ τ) (st st' : LoopState ID σ τ)
    (h : selectPhase sig st = StepOut.cont st') : st'.stack ≠ [] := by
  unfold selectPhase at h
  cases hev : st.events with
  | nil =>
    cases hac : st.actions with
    | nil => rw [hev, hac] at h; simp at h
    | cons a as =>
      rw [hev, hac] at h
      exact handleActionOut_cont_stack_ne sig _ st' a h
  | cons e es =>
    cases hac : st.actions with
    | nil =>
      rw [hev, hac] at h
      exact handleEventOut_cont_stack_ne sig _ st' e h
    | cons a as =>
      rw [hev, hac] at h
      dsimp only at h
      by_cases hs : st.sched.headD true
      · rw [if_pos hs] at h
        exact handleEventOut_cont_stack_ne sig _ st' e h
      · rw [if_neg hs] at h
        exact handleActionOut_cont_stack_ne sig _ st' a h

/-- If a loop iteration continues, the stack stays non-empty. -/
theorem step_cont_stack_ne (sig : ScreenSig ID σ τ) (st st' : LoopState ID σ τ)
    (h : step sig st = StepOut.cont st') : st'.stack ≠ [] := by
  unfold step at h
  split at h
  · simp at h
  · split at h
    · split at h
      · exact selectPhase_cont_stack_ne sig _ st' h
      · simp at h
    · exact selectPhase_cont_stack_ne sig _ st' h

/-- Iterating cont-steps preserves non-emptiness of the stack. -/
theorem stepN_stack_ne (sig : ScreenSig ID σ τ) :
    ∀ (n : Nat) (st st' : LoopState ID σ τ),
      st.stack ≠ [] → stepN sig n st = some st' → st'.stack ≠ [] := by
  intro n
  induction n with
  | zero =>
    intro st st' h h2
    simp [stepN] at h2
    rw [← h2]; exact h
  | succ n ih =>
    intro st st' h h2
    unfold stepN at h2
    cases hstep : step sig st with
    | cont st1 =>
      rw [hstep] at h2
      exact ih st1 st' (step_cont_stack_ne sig st st1 hstep) h2
    | exited st1 => rw [hstep] at h2; simp at h2
    | failed st1 => rw [hstep] at h2; simp at h2
    | panicked => rw [hstep] at h2; simp at h2
    | blocked st1 => rw [hstep] at h2; simp at h2

/-- C2: the screen stack is non-empty at every point from the end of
initialization (after the initial screen is pushed and entered) to the
beginning of shutdown (every state reached by cont-iterations of the run
loop), and every navigation action that lets the loop continue — Push,
Replace, Back, Clear, Restart (and Rerender; Exit ends the run) —
preserves non-emptiness of the stack. -/
theorem c2_stack_nonempty (sig : ScreenSig ID σ τ) (t0 : τ) (evs : List Event)
    (dr sc : List Bool) :
    (initState sig t0 evs dr sc).stack ≠ [] ∧
    (∀ (n : Nat) (st' : LoopState ID σ τ),
        stepN sig n (initState sig t0 evs dr sc) = some st' → st'.stack ≠ []) ∧
    (∀ (st st' : LoopState ID σ τ) (a : Action ID),
        applyAction sig st a = some (ActionResult.next st') → st'.stack ≠ []) := by
  refine ⟨by simp [initState], ?_, ?_⟩
  · intro n st' h
    exact stepN_stack_ne sig n _ st' (by simp [initState]) h
  · intro st st' a h
    exact applyAction_next_stack_ne sig st st' a h

/-- C2 witness: from a concrete initial state with one pending key event,
the state after one loop iteration has a non-empty stack. -/
theorem c2_stack_nonempty_witness : stC2.stack ≠ [] :=
  (c2_stack_nonempty sigC 0 [Event.key 0] [] []).2.1 1 stC2 (by decide)

/-- C4: the Clear action pops every screen below the top (second-from-top
downward) and calls on_exit exactly once on each of them — the trace grows
by exactly one exit entry per popped instance, in pop order, and nothing
else, so the preserved top receives no on_enter, no on_resume and no other
callback — leaves the stack holding exactly the unchanged top instance,
and leaves the dirty flag untouched. -/
theorem c4_clear_preserves_top (sig : ScreenSig ID σ τ) (st : LoopState ID σ τ)
    (top : Inst σ) (rest : List (Inst σ)) (hstack : st.stack = top :: rest) :
    ∃ st' : LoopState ID σ τ,
      applyAction sig st Action.clear = some (ActionResult.next st') ∧
      st'.stack = [top] ∧
      st'.dirty = st.dirty ∧
      st'.trace = st.trace ++ rest.map fun i => TraceEntry.exit i.tag := by
  refine ⟨{ st with
    stack := [top],
    appState := (exitAll sig rest st.appState).1,
    actions := st.actions ++ (exitAll sig rest st.appState).2.1,
    trace := st.trace ++ (exitAll sig rest st.appState).2.2 }, ?_, rfl, rfl, ?_⟩
  · unfold applyAction
    rw [hstack]
  · simp [exitAll_trace]

/-- C4 witness: Clear on a concrete three-screen stack keeps only the top
instance unchanged, exits the two below it top-down, and leaves dirty as
it was. -/
theorem c4_clear_preserves_top_witness :
    ∃ st' : LoopState Nat Nat Nat,
      applyAction sigC stC4 Action.clear = some (ActionResult.next st') ∧
      st'.stack = [⟨2, 9⟩] ∧
      st'.dirty = stC4.dirty ∧
      st'.trace = stC4.trace ++
        [(⟨1, 8⟩ : Inst Nat), ⟨0, 7⟩].map fun i => TraceEntry.exit i.tag :=
  c4_clear_preserves_top sigC stC4 ⟨2, 9⟩ [⟨1, 8⟩, ⟨0, 7⟩] rfl

/-- C5: Back on a stack of size greater than one calls on_exit on the
current top, pops it, calls on_resume on the new top and sets the dirty
flag — the trace grows by exactly the exit of the old top followed by the
resume of the new top; Back on a stack of size one leaves the whole loop
state (stack, dirty flag, trace, queues) completely unchanged. -/
theorem c5_back_behavior (sig : ScreenSig ID σ τ) (st : LoopState ID σ τ) :
    (∀ (a b : Inst σ) (rest : List (Inst σ)), st.stack = a :: b :: rest →
      ∃ st' : LoopState ID σ τ,
        applyAction sig st Action.back = some (ActionResult.next st') ∧
        st'.stack =
          Inst.mk b.tag (sig.onResume b.scr (sig.onExit a.scr st.appState).2.1).1 :: rest ∧
        st'.dirty = true ∧
        st'.trace = st.trace ++ [TraceEntry.exit a.tag, TraceEntry.resume b.tag]) ∧
    (∀ a : Inst σ, st.stack = [a] →
      applyAction sig st Action.back = some (ActionResult.next st)) := by
  constructor
  · intro a b rest hstack
    refine ⟨{ st with
      stack := ⟨b.tag, (sig.onResume b.scr (sig.onExit a.scr st.appState).2.1).1⟩ :: rest,
      appState := (sig.onResume b.scr (sig.onExit a.scr st.appState).2.1).2.1,
      actions := st.actions ++ (sig.onExit a.scr st.appState).2.2 ++
        (sig.onResume b.scr (sig.onExit a.scr st.appState).2.1).2.2,
      dirty := true,
      trace := st.trace ++ [TraceEntry.exit a.tag, TraceEntry.resume b.tag] },
      ?_, rfl, rfl, rfl⟩
    unfold applyAction
    rw [hstack]
  · intro a hstack
    unfold applyAction
    rw [hstack]

/-- C5 witness: Back on a concrete two-screen stack pops and exits the
top, resumes the survivor and sets dirty; Back on a concrete one-screen
stack is the identity on the loop state. -/
theorem c5_back_behavior_witness :
    (∃ st' : LoopState Nat Nat Nat,
      applyAction sigC stC5a Action.back = some (ActionResult.next st') ∧
      st'.stack =
        Inst.mk (0 : Nat) (sigC.onResume 7 (sigC.onExit 8 stC5a.appState).2.1).1 :: [] ∧
      st'.dirty = true ∧
      st'.trace = stC5a.trace ++ [TraceEntry.exit 1, TraceEntry.resume 0]) ∧
    applyAction sigC stC5b Action.back = some (ActionResult.next stC5b) :=
  ⟨(c5_back_behavior sigC stC5a).1 ⟨1, 8⟩ ⟨0, 7⟩ [] rfl,
   (c5_back_behavior sigC stC5b).2 ⟨0, 7⟩ rfl⟩

/-- C3: Push(id) followed by Back returns to a net top that is the very
same instance as before the push (same tag, and — since Push and Back
invoke only on_pause and on_resume on that instance — the same screen
value whenever those callbacks leave the screen unchanged, which is how
the framework itself never touches it), and the pushed instance is gone
from the stack after having received, over its whole life, exactly one
on_enter followed by exactly one on_exit and nothing else. The freshness
hypotheses say the next tag is genuinely fresh, which every state reached
from initialization satisfies. -/
theorem c3_push_back_roundtrip (sig : ScreenSig ID σ τ) (st : LoopState ID σ τ)
    (id : ID) (t : Inst σ) (rest : List (Inst σ))
    (hstack : st.stack = t :: rest)
    (hfresh : ∀ i ∈ st.stack, i.tag < st.nextTag)
    (htrace : st.trace.filter (touches st.nextTag) = [])
    (hpause : ∀ (s : σ) (u : τ), (sig.onPause s u).1 = s)
    (hresume : ∀ (s : σ) (u : τ), (sig.onResume s u).1 = s) :
    ∃ st1 st2 : LoopState ID σ τ,
      applyAction sig st (Action.push id) = some (ActionResult.next st1) ∧
      applyAction sig st1 Action.back = some (ActionResult.next st2) ∧
      st2.stack = st.stack ∧
      st2.stack.head? = some t ∧
      st2.trace.filter (touches st.nextTag) =
        [TraceEntry.enter st.nextTag, TraceEntry.exit st.nextTag] ∧
      ∀ i ∈ st2.stack, i.tag ≠ st.nextTag := by
  have htag : t.tag < st.nextTag := hfresh t (by rw [hstack]; exact List.mem_cons_self _ _)
  have hne : t.tag ≠ st.nextTag := Nat.ne_of_lt htag
  have hbeq : (t.tag == st.nextTag) = false := by simp [hne]
  refine ⟨{ st with
      stack := ⟨st.nextTag, (sig.onEnter (sig.new id) (sig.onPause t.scr st.appState).2.1).1⟩ ::
        ⟨t.tag, (sig.onPause t.scr st.appState).1⟩ :: rest,
      appState := (sig.onEnter (sig.new id) (sig.onPause t.scr st.appState).2.1).2.1,
      actions := st.actions ++ (sig.onPause t.scr st.appState).2.2 ++
        (sig.onEnter (sig.new id) (sig.onPause t.scr st.appState).2.1).2.2,
      dirty := true,
      nextTag := st.nextTag + 1,
      trace := st.trace ++ [TraceEntry.pause t.tag, TraceEntry.enter st.nextTag] },
    { st with
      stack := ⟨t.tag, (sig.onResume (sig.onPause t.scr st.appState).1
        (sig.onExit (sig.onEnter (sig.new id) (sig.onPause t.scr st.appState).2.1).1
          (sig.onEnter (sig.new id) (sig.onPause t.scr st.appState).2.1).2.1).2.1).1⟩ :: rest,
      appState := (sig.onResume (sig.onPause t.scr st.appState).1
        (sig.onExit (sig.onEnter (sig.new id) (sig.onPause t.scr st.appState).2.1).1
          (sig.onEnter (sig.new id) (sig.onPause t.scr st.appState).2.1).2.1).2.1).2.1,
      actions := st.actions ++ (sig.onPause t.scr st.appState).2.2 ++
        (sig.onEnter (sig.new id) (sig.onPause t.scr st.appState).2.1).2.2 ++
        (sig.onExit (sig.onEnter (sig.new id) (sig.onPause t.scr st.appState).2.1).1
          (sig.onEnter (sig.new id) (sig.onPause t.scr st.appState).2.1).2.1).2.2 ++
        (sig.onResume (sig.onPause t.scr st.appState).1
          (sig.onExit (sig.onEnter (sig.new id) (sig.onPause t.scr st.appState).2.1).1
            (sig.onEnter (sig.new id) (sig.onPause t.scr st.appState).2.1).2.1).2.1).2.2,
      dirty := true,
      nextTag := st.nextTag + 1,
      trace := st.trace ++ [TraceEntry.pause t.tag, TraceEntry.enter st.nextTag] ++
        [TraceEntry.exit st.nextTag, TraceEntry.resume t.tag] },
    ?_, ?_, ?_, ?_, ?_, ?_⟩
  · unfold applyAction
    rw [hstack]
  · rfl
  · rw [hstack]
    simp [hpause, hresume]
  · simp [hpause, hresume]
  · simp [List.filter_append, htrace, touches, hbeq]
  · intro i hi
    rcases List.mem_cons.mp hi with h | h
    · rw [h]
      exact hne
    · exact Nat.ne_of_lt (hfresh i (by rw [hstack]; exact List.mem_cons_of_mem _ h))

/-- C3 witness: on a concrete one-screen stack, pushing screen 3 and going
back restores the original instance on top, and the pushed instance (tag 1)
has exactly an enter followed by an exit in the trace and is no longer on
the stack. -/
theorem c3_push_back_roundtrip_witness :
    ∃ st1 st2 : LoopState Nat Nat Nat,
      applyAction sigC stC3 (Action.push 3) = some (ActionResult.next st1) ∧
      applyAction sigC st1 Action.back = some (ActionResult.next st2) ∧
      st2.stack = stC3.stack ∧
      st2.stack.head? = some ⟨0, 5⟩ ∧
      st2.trace.filter (touches stC3.nextTag) =
        [TraceEntry.enter stC3.nextTag, TraceEntry.exit stC3.nextTag] ∧
      ∀ i ∈ st2.stack, i.tag ≠ stC3.nextTag :=
  c3_push_back_roundtrip sigC stC3 3 ⟨0, 5⟩ [] rfl (by decide) rfl
    (fun _ _ => rfl) (fun _ _ => rfl)

/-- C6: when the backend draw call fails during an iteration, the loop
restores the terminal and the run returns that error immediately — the
resulting state has the trace extended by exactly the terminal
restoration, so no lifecycle callback runs after the failure, and the
stack is returned as it was: every screen still on it is dropped without
receiving on_exit. -/
theorem c6_draw_error_aborts (sig : ScreenSig ID σ τ) (st : LoopState ID σ τ)
    (ds : List Bool) (h1 : st.stack ≠ []) (h2 : st.dirty = true)
    (h3 : st.drawResults = false :: ds) :
    step sig st = StepOut.failed { st with trace := st.trace ++ [TraceEntry.restore] } ∧
    ∀ n : Nat, runLoop sig (n + 1) st =
      RunResult.ioErr { st with trace := st.trace ++ [TraceEntry.restore] } := by
  have hstep : step sig st =
      StepOut.failed { st with trace := st.trace ++ [TraceEntry.restore] } := by
    unfold step
    cases hs : st.stack with
    | nil => exact absurd hs h1
    | cons top rest => simp [h2, h3]
  exact ⟨hstep, fun n => by simp [runLoop, hstep]⟩

/-- C6 witness: on a concrete dirty state whose next backend draw result
is an error, the iteration fails with only a terminal restoration recorded
and the run returns the error. -/
theorem c6_draw_error_aborts_witness :
    step sigC stC6 = StepOut.failed { stC6 with trace := stC6.trace ++ [TraceEntry.restore] } ∧
    ∀ n : Nat, runLoop sigC (n + 1) stC6 =
      RunResult.ioErr { stC6 with trace := stC6.trace ++ [TraceEntry.restore] } :=
  c6_draw_error_aborts sigC stC6 [] (by decide) rfl rfl

/-- C7: processing an Exit action breaks the run loop; every instance
alive at that moment receives on_exit exactly once, popped in top-down
order (the trace grows by exactly one exit entry per instance, top
first), the terminal is then restored, and the run returns the Ok
result. -/
theorem c7_exit_shutdown (sig : ScreenSig ID σ τ) (st : LoopState ID σ τ)
    (rest : List (Action ID)) (h1 : st.stack ≠ []) (h2 : st.dirty = false)
    (h3 : st.events = []) (h4 : st.actions = Action.exit :: rest) :
    ∃ st1 : LoopState ID σ τ,
      step sig st = StepOut.exited st1 ∧
      st1.stack = [] ∧
      st1.trace = st.trace ++ st.stack.map (fun i => TraceEntry.exit i.tag) ∧
      ∀ n : Nat, runLoop sig (n + 1) st =
        RunResult.ok { st1 with trace := st1.trace ++ [TraceEntry.restore] } := by
  cases hs : st.stack with
  | nil => exact absurd hs h1
  | cons top rest' =>
    have h5 : step sig st = selectPhase sig st := by
      unfold step
      rw [hs]
      simp [h2]
    have h6 : selectPhase sig st =
        handleActionOut sig { st with actions := rest } Action.exit := by
      unfold selectPhase
      rw [h3, h4]
    have h7 : handleActionOut sig { st with actions := rest } Action.exit =
        StepOut.exited { st with
          stack := [],
          appState := (exitAll sig (top :: rest') st.appState).1,
          actions := rest ++ (exitAll sig (top :: rest') st.appState).2.1,
          trace := st.trace ++ (exitAll sig (top :: rest') st.appState).2.2 } := by
      unfold handleActionOut applyAction
      simp [hs]
    have hstep := h5.trans (h6.trans h7)
    refine ⟨_, hstep, rfl, ?_, ?_⟩
    · simp [exitAll_trace]
    · intro n
      simp [runLoop, hstep]

/-- C7 witness: on a concrete two-screen state whose next action is Exit,
the loop breaks, both instances get on_exit top-down, the terminal is
restored, and the run returns Ok. -/
theorem c7_exit_shutdown_witness :
    ∃ st1 : LoopState Nat Nat Nat,
      step sigC stC7 = StepOut.exited st1 ∧
      st1.stack = [] ∧
      st1.trace = stC7.trace ++ stC7.stack.map (fun i => TraceEntry.exit i.tag) ∧
      ∀ n : Nat, runLoop sigC (n + 1) stC7 =
        RunResult.ok { st1 with trace := st1.trace ++ [TraceEntry.restore] } :=
  c7_exit_shutdown sigC stC7 [] (by decide) rfl rfl rfl

/-- C1 (amended): every main-loop iteration awaits the first of two
sources to complete — a terminal event or a navigation action; the code
has no background() arm to complete, re-arm or cancel. Concretely, with a
non-empty stack and the dirty flag clear, the select blocks exactly when
both channels are empty (no third source can wake the loop), a pending
terminal event with an empty action channel resolves to the event arm, a
pending action with an empty event channel resolves to the action arm,
with both pending the schedule oracle picks one of the two arms, and the
only redraw-only dispatch the code has is the Rerender action, whose
handling sets the dirty flag and does nothing else. -/
theorem c1_two_source_select (sig : ScreenSig ID σ τ) (st : LoopState ID σ τ)
    (h1 : st.stack ≠ []) (h2 : st.dirty = false) :
    ((step sig st = StepOut.blocked st) ↔ (st.events = [] ∧ st.actions = [])) ∧
    (∀ (e : Event) (es : List Event), st.events = e :: es → st.actions = [] →
        step sig st = handleEventOut sig { st with events := es } e) ∧
    (∀ (a : Action ID) (as : List (Action ID)), st.events = [] → st.actions = a :: as →
        step sig st = handleActionOut sig { st with actions := as } a) ∧
    (∀ (e : Event) (es : List Event) (a : Action ID) (as : List (Action ID)),
        st.events = e :: es → st.actions = a :: as →
        step sig st = if st.sched.headD true
          then handleEventOut sig { st with events := es, sched := st.sched.tail } e
          else handleActionOut sig { st with actions := as, sched := st.sched.tail } a) ∧
    applyAction sig st Action.rerender = some (ActionResult.next { st with dirty := true }) := by
  have hsel : step sig st = selectPhase sig st := by
    unfold step
    cases hs : st.stack with
    | nil => exact absurd hs h1
    | cons top rest => simp [h2]
  refine ⟨?_, ?_, ?_, ?_, ?_⟩
  · rw [hsel]
    constructor
    · intro hb
      cases hev : st.events with
      | nil =>
        cases hac : st.actions with
        | nil => exact ⟨rfl, rfl⟩
        | cons a as =>
          unfold selectPhase at hb
          rw [hev, hac] at hb
          exact absurd hb (handleActionOut_ne_blocked sig _ st a)
      | cons e es =>
        cases hac : st.actions with
        | nil =>
          unfold selectPhase at hb
          rw [hev, hac] at hb
          exact absurd hb (handleEventOut_ne_blocked sig _ st e)
        | cons a as =>
          unfold selectPhase at hb
          rw [hev, hac] at hb
          have hb' : (if st.sched.headD true = true
              then handleEventOut sig
                { st with events := es, actions := a :: as, sched := st.sched.tail } e
              else handleActionOut sig
                { st with events := e :: es, actions := as, sched := st.sched.tail } a) =
              StepOut.blocked st := hb
          by_cases hsch : st.sched.headD true = true
          · rw [if_pos hsch] at hb'
            exact absurd hb' (handleEventOut_ne_blocked sig _ st e)
          · rw [if_neg hsch] at hb'
            exact absurd hb' (handleActionOut_ne_blocked sig _ st a)
    · rintro ⟨hev, hac⟩
      unfold selectPhase
      rw [hev, hac]
  · intro e es hev hac
    rw [hsel]
    unfold selectPhase
    rw [hev, hac]
  · intro a as hev hac
    rw [hsel]
    unfold selectPhase
    rw [hev, hac]
  · intro e es a as hev hac
    rw [hsel]
    unfold selectPhase
    rw [hev, hac]
  · unfold applyAction
    cases hs : st.stack with
    | nil => exact absurd hs h1
    | cons top rest => rfl

/-- C1 counterexample: the claim as stated requires a third await source,
the top screen's background() future. Neither select arm of the code
implements the background source, and on a concrete state with both
channels empty the loop step blocks forever even though a screen is on
top — no background completion can wake it. -/
theorem c1_counterexample :
    selectArmSource SelectArm.terminalEvent ≠ SpecSource.background ∧
    selectArmSource SelectArm.navAction ≠ SpecSource.background ∧
    step sigC stBlockC = StepOut.blocked stBlockC :=
  ⟨by decide, by decide, by decide⟩

/-- C1 witness: the amended two-source statement applied at a concrete
state with one pending terminal event resolves the await to the event
arm. -/
theorem c1_two_source_select_witness :
    step sigC stC1 = handleEventOut sigC { stC1 with events := [] } (Event.key 1) :=
  (c1_two_source_select sigC stC1 (by decide) rfl).2.1 (Event.key 1) [] rfl rfl

/-- The reader worker forwards exactly the successfully read events up to
the moment the receiver is dropped. -/
theorem readerRun_forwarded (reads : List (Option Event)) :
    ∀ alive : Nat, (readerRun reads alive).1 = (reads.filterMap id).take alive := by
  induction reads with
  | nil => intro alive; simp [readerRun]
  | cons o rest ih =>
    intro alive
    cases o with
    | none => simp [readerRun, ih]
    | some e =>
      cases alive with
      | zero => simp [readerRun]
      | succ k => simp [readerRun, ih]

/-- The reader worker breaks out of its loop exactly when a send fails,
which happens exactly when more reads succeed than the receiver stays
alive for. -/
theorem readerRun_terminated (reads : List (Option Event)) :
    ∀ alive : Nat,
      ((readerRun reads alive).2 = true ↔ alive < (reads.filterMap id).length) := by
  induction reads with
  | nil => intro alive; simp [readerRun]
  | cons o rest ih =>
    intro alive
    cases o with
    | none => simp [readerRun, ih]
    | some e =>
      cases alive with
      | zero => simp [readerRun]
      | succ k => simp [readerRun, ih, Nat.succ_lt_succ_iff]

/-- C8: the terminal reader worker swallows every error returned by the
blocking read and keeps looping — a failed read changes nothing and
forwards no event — the events it forwards are exactly the successfully
read ones until the receiver is dropped, and it terminates exactly when a
send fails because the receiver was dropped (that is, exactly when more
reads succeed than sends can succeed). -/
theorem c8_reader_worker (reads : List (Option Event)) (alive : Nat) :
    readerRun (none :: reads) alive = readerRun reads alive ∧
    (readerRun reads alive).1 = (reads.filterMap id).take alive ∧
    ((readerRun reads alive).2 = true ↔ alive < (reads.filterMap id).length) :=
  ⟨rfl, readerRun_forwarded reads alive, readerRun_terminated reads alive⟩

/-- C9: the blanket ScreenWithState implementation for any stateless
Screen makes every operation behave identically to the stateless
operation, and none of the operations reads or modifies the
application-state argument: draw gives the same result whatever state is
passed, and every callback returns the state argument unchanged alongside
exactly the stateless screen and action results. -/
theorem c9_blanket_screen_with_state (ID σ τ Fr : Type) (ops : ScreenOps ID σ Fr)
    (s : σ) (f : Fr) (e : Event) (t t' : τ) :
    ((toWithState ops).draw s f t = ops.draw s f ∧
      (toWithState ops).draw s f t = (toWithState ops).draw s f t') ∧
    (toWithState ops).onEvent s e t = ((ops.onEvent s e).1, t, (ops.onEvent s e).2) ∧
    (toWithState ops).onEnter s t = ((ops.onEnter s).1, t, (ops.onEnter s).2) ∧
    (toWithState ops).onExit s t = ((ops.onExit s).1, t, (ops.onExit s).2) ∧
    (toWithState ops).onPause s t = ((ops.onPause s).1, t, (ops.onPause s).2) ∧
    (toWithState ops).onResume s t = ((ops.onResume s).1, t, (ops.onResume s).2) :=
  ⟨⟨rfl, rfl⟩, rfl, rfl, rfl, rfl, rfl⟩

/-- C10: for every user enum processed by the Screens derive macro, the
generated new(id) is total over the generated ScreenID and returns the
enum variant whose discriminant matches id, holding a fresh
Default-initialised instance of that variant's screen type — never a
different kind — and each generated capability method dispatches to the
screen held in the currently active variant, preserving the variant
tag. -/
theorem c10_derive_screen_state (n : Nat) (Scr : Fin n → Type)
    (dflt : (k : Fin n) → Scr k) (ID τ Fr : Type)
    (ops : (k : Fin n) → ScreenWithStateOps ID (Scr k) τ Fr)
    (id k : Fin n) (s : Scr k) (f : Fr) (t : τ) (e : Event) :
    genNew n Scr dflt id = ⟨id, dflt id⟩ ∧
    genDraw ops ⟨k, s⟩ f t =
      (⟨k, ((ops k).draw s f t).1⟩, ((ops k).draw s f t).2) ∧
    genOnEvent ops ⟨k, s⟩ e t =
      (⟨k, ((ops k).onEvent s e t).1⟩, ((ops k).onEvent s e t).2.1,
        ((ops k).onEvent s e t).2.2) ∧
    genOnEnter ops ⟨k, s⟩ t =
      (⟨k, ((ops k).onEnter s t).1⟩, ((ops k).onEnter s t).2.1,
        ((ops k).onEnter s t).2.2) ∧
    genOnExit ops ⟨k, s⟩ t =
      (⟨k, ((ops k).onExit s t).1⟩, ((ops k).onExit s t).2.1,
        ((ops k).onExit s t).2.2) ∧
    genOnPause ops ⟨k, s⟩ t =
      (⟨k, ((ops k).onPause s t).1⟩, ((ops k).onPause s t).2.1,
        ((ops k).onPause s t).2.2) ∧
    genOnResume ops ⟨k, s⟩ t =
      (⟨k, ((ops k).onResume s t).1⟩, ((ops k).onResume s t).2.1,
        ((ops k).onResume s t).2.2) := by
  refine ⟨?_, rfl, rfl, rfl, rfl, rfl, rfl⟩
  unfold genNew genNewArms
  rw [List.get_ofFn]
  have hcast : ∀ (h1 : n =
        (List.ofFn fun j : Fin n => ((⟨j, dflt j⟩ : (i : Fin n) × Scr i))).length)
      (h2 : (List.ofFn fun j : Fin n => ((⟨j, dflt j⟩ : (i : Fin n) × Scr i))).length = n),
      Fin.cast h2 (Fin.cast h1 id) = id := fun h1 h2 => Fin.ext rfl
  rw [hcast]

end Ratapp
